import Mathlib

/-!
Verification of the nsync Docker recipe builder
(`recipebuilder/docker_recipe_builder.go`).

Go strings are modelled as `List Char`; fallible code returns `Option` or
`Except`; a Go runtime panic (out-of-range slice index) is modelled as the
`none` outcome of an `Option`-valued function.
-/

set_option autoImplicit false

namespace Nsync

/-- Shorthand turning a Lean string literal into the `List Char` that models
a Go string. -/
def str (s : String) : List Char := s.data

/-- Model of `strings.SplitN(s, "/", 2)`: the first component is the text
before the first slash; the second is `some rest` when a slash exists
(`rest` being everything after it) and `none` when the split produced a
single element. -/
def splitN2 : List Char → List Char × Option (List Char)
  | [] => ([], none)
  | c :: cs =>
    if c = '/' then ([], some cs)
    else ((splitN2 cs).1.cons c, (splitN2 cs).2)

/-- Model of `strings.LastIndex(s, ":")` for a single character: the index of
the last occurrence, `none` when absent (Go returns `-1`). -/
def lastIndexOf (l : List Char) (c : Char) : Option Nat :=
  match l with
  | [] => none
  | x :: xs =>
    match lastIndexOf xs c with
    | some n => some (n + 1)
    | none => if x = c then some 0 else none

/-- Model of `strings.Contains(s, pat)` for a multi-character pattern
(used only for the `"://"` scheme check). -/
def containsSeq (pat : List Char) : List Char → Bool
  | [] => pat.isPrefixOf []
  | c :: cs => pat.isPrefixOf (c :: cs) || containsSeq pat cs

/-- The `DockerScheme` constant of the source. -/
def DockerScheme : List Char := str "docker"

/-- The `DockerIndexServer` constant of the source. -/
def DockerIndexServer : List Char := str "docker.io"

/-- Translation of `parseDockerRepositoryTag`: split a trailing `:suffix`
off the repository name unless the suffix contains a `/` (in which case the
colon was part of a host:port and no tag is extracted). -/
def parseDockerRepositoryTag (remoteName : List Char) : List Char × List Char :=
  match lastIndexOf remoteName ':' with
  | none => (remoteName, [])
  | some n =>
    if '/' ∈ remoteName.drop (n + 1) then (remoteName, [])
    else (remoteName.take n, remoteName.drop (n + 1))

/-- Translation of `officialRegistry`: true when the split produced a single
segment, or the first segment is the default index hostname, or the first
segment contains neither `.` nor `:` and is not `localhost`. -/
def officialRegistry (nameParts : List Char × Option (List Char)) : Bool :=
  decide (nameParts.2 = none ∨ nameParts.1 = DockerIndexServer ∨
    ('.' ∉ nameParts.1 ∧ ':' ∉ nameParts.1 ∧ nameParts.1 ≠ str "localhost"))

/-- The library-prefix step shared by both official-registry sub-branches:
a remote name containing no `/` is prefixed with the default namespace
segment `library/`. -/
def withLibrary (remoteName : List Char) : List Char :=
  if '/' ∈ remoteName then remoteName else str "library/" ++ remoteName

/-- Translation of `parseDockerRepoUrl`. The result is
`some (indexName, remoteName, tag)`; `none` models the Go runtime panic that
occurs when `nameParts[1]` is read although the split produced a single
segment (input exactly `"docker.io"`, or the unreachable non-official
single-segment case). In the official branch the Go code first chooses the
index/remote pair and then applies the shared library-prefix and tag-split
steps; here those steps are applied in each sub-branch, which composes to the
same value. -/
def parseDockerRepoUrl (dockerURI : List Char) : Option (List Char × List Char × List Char) :=
  let nameParts := splitN2 dockerURI
  if officialRegistry nameParts then
    if nameParts.1 = DockerIndexServer then
      match nameParts.2 with
      | none => none
      | some rest =>
        let p := parseDockerRepositoryTag (withLibrary rest)
        some (DockerIndexServer, p.1, p.2)
    else
      let p := parseDockerRepositoryTag (withLibrary dockerURI)
      some ([], p.1, p.2)
  else
    match nameParts.2 with
    | none => none
    | some rest =>
      let p := parseDockerRepositoryTag rest
      some (nameParts.1, p.1, p.2)

/-- Escaping mode of Go's `net/url` package, restricted to the two modes the
source exercises (`encodePath` for `URL.Path`, `encodeFragment` for
`URL.Fragment`). -/
inductive EscapeMode where
  | path
  | fragment
deriving DecidableEq

/-- Translation of `net/url.shouldEscape` for the two modes used here. Go
operates on bytes; the model operates on characters, which coincides with Go
on the ASCII range (all strings in the claims are ASCII). -/
def shouldEscape (c : Char) (mode : EscapeMode) : Bool :=
  if ('A' ≤ c ∧ c ≤ 'Z') ∨ ('a' ≤ c ∧ c ≤ 'z') ∨ ('0' ≤ c ∧ c ≤ '9') then false
  else if c = '-' ∨ c = '_' ∨ c = '.' ∨ c = '~' then false
  else if c = '$' ∨ c = '&' ∨ c = '+' ∨ c = ',' ∨ c = '/' ∨ c = ':' ∨ c = ';' ∨
      c = '=' ∨ c = '?' ∨ c = '@' then
    match mode with
    | .path => decide (c = '?')
    | .fragment => false
  else true

/-- Upper-case hexadecimal digit, as in Go's `net/url` escaping table. -/
def hexDigitChar (n : Nat) : Char := (str "0123456789ABCDEF").getD n '0'

/-- Percent-escape one character (Go escapes one byte; identical on ASCII). -/
def escapeChar (c : Char) (mode : EscapeMode) : List Char :=
  if shouldEscape c mode then
    ['%', hexDigitChar (c.toNat / 16 % 16), hexDigitChar (c.toNat % 16)]
  else [c]

/-- Model of `net/url.escape` applied to a whole string. -/
def escapeList (mode : EscapeMode) : List Char → List Char
  | [] => []
  | c :: cs => escapeChar c mode ++ escapeList mode cs

/-- The `url.URL` value the source constructs: only `Scheme`, `Path` and
`Fragment` are ever set (`Host`, `User`, `Opaque`, `RawQuery` stay zero). -/
structure GoURL where
  scheme : List Char
  path : List Char
  fragment : List Char
deriving DecidableEq

/-- Translation of `url.URL.String()` for values whose `Host`, `User`,
`Opaque` and `RawQuery` are zero: `scheme:` then `//` (written because the
scheme is non-empty), then the escaped path, then `#fragment` when the
fragment is non-empty. The extra-slash insertion of the Go code never fires
because `Host` is empty. -/
def urlToString (u : GoURL) : List Char :=
  (if u.scheme = [] then [] else u.scheme ++ [':']) ++
  (if u.scheme = [] then [] else str "//") ++
  escapeList .path u.path ++
  (if u.fragment = [] then [] else '#' :: escapeList .fragment u.fragment)

/-- Translation of `convertDockerURI`. `some (.error msg)` models the Go
error return for a URI that already contains a scheme separator;
`some (.ok uri)` is the canonical serialized reference; `none` models the
panic propagated out of `parseDockerRepoUrl`. -/
def convertDockerURI (dockerURI : List Char) : Option (Except (List Char) (List Char)) :=
  if containsSeq (str "://") dockerURI then
    some (.error (str "docker URI [" ++ dockerURI ++ str "] should not contain scheme"))
  else
    match parseDockerRepoUrl dockerURI with
    | none => none
    | some (indexName, remoteName, tag) =>
      some (.ok (urlToString
        { scheme := DockerScheme
          path := indexName ++ str "/" ++ remoteName
          fragment := tag }))

deriving instance DecidableEq for Except

/-- An exposed-port descriptor of the decoded image metadata: port number and
transport protocol (the Go struct has `Port uint32` and `Protocol string`). -/
structure DockerPortMD where
  port : Nat
  protocol : List Char
deriving DecidableEq

/-- Modelled from the spec: the `DockerExecutionMetadata` value (its defining
file is not under `src/`) — run-as-user (may be absent, i.e. empty) and the
ordered list of exposed-port descriptors; only these two fields are read by
the code under `src/`. -/
structure DockerExecutionMetadata where
  user : List Char
  exposedPorts : List DockerPortMD
deriving DecidableEq

/-- Modelled from the spec: the platform default port (`DefaultPort`, a
well-known platform port; its defining file is not under `src/`). No claim
depends on the numeric value. -/
def DefaultPort : Nat := 8080

/-- Modelled from the spec: the fixed well-known secure-shell port
(`DefaultSSHPort`; its defining file is not under `src/`). The route entry in
`src/` hard-codes the container-side port `2222`, with which this value
agrees. -/
def DefaultSSHPort : Nat := 2222

/-- Modelled from the spec: the platform default file-descriptor limit
(`DefaultFileDescriptorLimit`; not under `src/`). No claim depends on the
value. -/
def DefaultFileDescriptorLimit : Nat := 1024

/-- Modelled from the spec: log source constants (not under `src/`); the
values are irrelevant to every claim. -/
def AppLogSource : List Char := str "APP"

/-- Modelled from the spec: the LRP-level log source constant (not under
`src/`). -/
def LRPLogSource : List Char := str "CELL"

/-- Modelled from the spec: the application-LRP domain tag
(`cc_messages.AppLRPDomain`, an external package constant). -/
def AppLRPDomain : List Char := str "cf-apps"

/-- The `cc_messages.PortHealthCheckType` constant (external package): the
string `"port"`. -/
def PortHealthCheckType : List Char := str "port"

/-- The `cc_messages.UnspecifiedHealthCheckType` constant (external package):
the empty string. -/
def UnspecifiedHealthCheckType : List Char := []

/-- The `ssh_routes.DIEGO_SSH` route identifier (external package): the
string `"diego-ssh"`. -/
def DiegoSSHRouteKey : List Char := str "diego-ssh"

/-- Translation of `extractExposedPorts`. The `exposedPort` running variable
of the loop only ever feeds the `append`, so the loop is the fold shown here:
start from `[DefaultPort]` when no port is declared (the loop then runs zero
times), collect every declared `tcp` port in declaration order, and fail
(`none`, the Go `"No tcp ports found in image metadata"` error) when the
collected list is empty. -/
def extractExposedPorts (executionMetadata : DockerExecutionMetadata) : Option (List Nat) :=
  let exposedPorts := executionMetadata.exposedPorts
  let start : List Nat := if exposedPorts = [] then [DefaultPort] else []
  let ports := exposedPorts.foldl
    (fun acc port => if port.protocol = str "tcp" then acc ++ [port.port] else acc) start
  if ports = [] then none else some ports

/-- Translation of `extractUser`: the metadata's run-as-user when non-empty,
else the literal `root`. The Go error component is always `nil` and is
dropped. -/
def extractUser (executionMetadata : DockerExecutionMetadata) : List Char :=
  if executionMetadata.user.length > 0 then executionMetadata.user else str "root"

/-- An environment variable of the run-spec. -/
structure EnvVar where
  name : List Char
  value : List Char
deriving DecidableEq

/-- The action tree of the run-spec (the `models` package's tagged action
variants, restricted to the variants this builder emits). `run` carries the
user, binary path, arguments, environment, the `Nofile` resource limit when
one is set, and the log source. -/
inductive Action where
  | download (fromURL toPath cacheKey user : List Char)
  | run (user path : List Char) (args : List (List Char)) (env : List EnvVar)
      (nofile : Option Nat) (logSource : List Char)
  | serial (children : List Action)
  | codependent (children : List Action)
  | parallel (children : List Action)
  | timeout (child : Action) (durationNanos : Nat)

/-- One nanosecond-denominated second, the Go `time.Second` constant. -/
def timeSecond : Nat := 1000000000

/-- The secure-shell route payload (`ssh_routes.SSHRoute`, external package):
container-side port, PEM-encoded private key, host-key fingerprint. -/
structure SSHRoute where
  containerPort : Nat
  privateKey : List Char
  hostFingerprint : List Char
deriving DecidableEq

/-- A route-table value: either an opaque raw payload produced by the route
translation collaborator, or the marshalled secure-shell route (the
`json.Marshal` of an `SSHRoute` is modelled by the injective constructor; for
a struct of strings and an integer the Go marshal never fails). -/
inductive RouteValue where
  | raw (payload : List Char)
  | ssh (route : SSHRoute)
deriving DecidableEq

/-- The route table, keyed by route-kind identifier (a Go
`map[string]*json.RawMessage`, modelled as an association list with distinct
keys). -/
abbrev Routes := List (List Char × RouteValue)

/-- Go map insertion: replace the entry when the key is present, append
otherwise. -/
def insertRoute (rs : Routes) (k : List Char) (v : RouteValue) : Routes :=
  if rs.any (fun q => decide (q.1 = k)) then
    rs.map (fun q => if q.1 = k then (k, v) else q)
  else rs ++ [(k, v)]

/-- A key pair produced by the key-pair collaborator (`config.KeyFactory`). -/
structure KeyPair where
  pemEncodedPrivateKey : List Char
  authorizedKey : List Char
  fingerprint : List Char
deriving DecidableEq

/-- The routing metadata of the request, opaque to this builder; the
`malformed` flag drives the modelled route-translation failure. -/
structure CCRouteInfo where
  malformed : Bool
  payload : List Char
deriving DecidableEq

/-- Modelled from the spec: the external route-translation collaborator
`helpers.CCRouteInfoToRoutes` (not under `src/`) maps the request's routing
metadata plus the port list to the route table and can fail
(`RouteTranslationFailed`); it produces entries under the http-routing key
only, never under the secure-shell identifier. -/
def ccRouteInfoToRoutes (routingInfo : CCRouteInfo) (_ports : List Nat) : Option Routes :=
  if routingInfo.malformed then none
  else some [(str "cf-router", .raw routingInfo.payload)]

/-- Modelled from the spec: `createLrpEnv` (not under `src/`) — the request
environment plus an injected variable carrying the first extracted port. -/
def createLrpEnv (env : List EnvVar) (port : Nat) : List EnvVar :=
  env ++ [⟨str "PORT", (Nat.repr port).data⟩]

/-- Modelled from the spec: `lifecycleDownloadURL` (not under `src/`) joins
the file-server base URL with the lifecycle's download path. -/
def lifecycleDownloadURL (lifecyclePath fileServerURL : List Char) : List Char :=
  fileServerURL ++ str "/v1/static/" ++ lifecyclePath

/-- Modelled from the spec: `getParallelAction` (not under `src/`) — the
health probe of all currently known ports, composed as a parallel probe
group rooted at the run-as-user. -/
def getParallelAction (ports : List Nat) (user : List Char) : Action :=
  .parallel (ports.map fun port =>
    .run user (str "/tmp/lifecycle/healthcheck")
      [str "-port=" ++ (Nat.repr port).data] [] (some DefaultFileDescriptorLimit) [])

/-- Modelled from the spec: `cpuWeight` (not under `src/`) derives the CPU
weight from the requested memory; the derivation is out of the spec's scope
and no claim depends on it. -/
def cpuWeight (memoryMB : Int) : Nat := memoryMB.toNat

/-- Go `int32` conversion (two's-complement wrap-around). -/
def toInt32 (n : Int) : Int := (n + 2 ^ 31) % 2 ^ 32 - 2 ^ 31

/-- Go `uint32` conversion (wrap-around). -/
def toUint32 (n : Int) : Nat := (n % 2 ^ 32).toNat

/-- Go `strings.Replace(s, "/", "-", 1)`: replace the first slash with a
dash. -/
def replaceFirstSlashDash : List Char → List Char
  | [] => []
  | c :: cs => if c = '/' then '-' :: cs else c :: replaceFirstSlashDash cs

/-- Association-list lookup modelling a Go map read (`Lifecycles[lifecycle]`). -/
def lookupAssoc : List (List Char × List Char) → List Char → Option (List Char)
  | [], _ => none
  | (k, v) :: rest, key => if k = key then some v else lookupAssoc rest key

/-- The inbound `DesireAppRequestFromCC` value, restricted to the fields the
builder reads. -/
structure DesireAppRequest where
  processGuid : List Char
  dockerImageUrl : List Char
  dropletUri : List Char
  numInstances : Int
  memoryMB : Int
  diskMB : Int
  fileDescriptors : Nat
  environment : List EnvVar
  startCommand : List Char
  executionMetadata : List Char
  routingInfo : CCRouteInfo
  healthCheckType : List Char
  healthCheckTimeoutInSeconds : Int
  allowSSH : Bool
  etag : List Char
  logGuid : List Char
  egressRules : List (List Char)

/-- The produced `DesiredLRP` run-spec, restricted to the fields the builder
sets. `setup`, `action` and `monitor` carry the wrapped action roots
(`WrapAction(nil)` is `none`). -/
structure DesiredLRP where
  privileged : Bool
  domain : List Char
  processGuid : List Char
  instances : Int
  routes : Routes
  annotationStr : List Char
  cpuWeight : Nat
  memoryMb : Int
  diskMb : Int
  ports : List Nat
  rootFs : List Char
  logGuid : List Char
  logSource : List Char
  metricsGuid : List Char
  environmentVariables : List EnvVar
  setup : Option Action
  action : Option Action
  monitor : Option Action
  startTimeout : Nat
  egressRules : List (List Char)

/-- The build-failure taxonomy: the package-level error values the builder
returns (several of them, like `ErrDockerImageMissing`, live in repository
files not under `src/`; only their identity matters). `unexpectedScheme`
carries the message built by `convertDockerURI`; `malformedMetadata` and
`routeConversionFailed` stand for the surfaced collaborator errors. -/
inductive BuildError where
  | dockerImageMissing
  | multipleAppSources
  | noDockerImage
  | noLifecycleDefined
  | unexpectedScheme (msg : List Char)
  | malformedMetadata
  | noTcpPortsFound
  | keyPairGenerationFailed
  | routeConversionFailed
deriving DecidableEq

/-- The builder configuration: the lifecycle table, the file-server base URL,
and the key-pair collaborator. The collaborator is modelled as a function of
the call index (the source calls `NewKeyPair(1024)` twice; call `0` produces
the host key pair, call `1` the user key pair; `none` is a generation
failure). -/
structure Config where
  lifecycles : List (List Char × List Char)
  fileServerURL : List Char
  keyFactory : Nat → Option KeyPair

/-- The file-descriptor ceiling of the run actions: the request-supplied
value when non-zero, else the platform default (`numFiles` in the source). -/
def numFilesOf (app : DesireAppRequest) : Nat :=
  if app.fileDescriptors ≠ 0 then app.fileDescriptors else DefaultFileDescriptorLimit

/-- The launcher `RunAction` the builder appends first: `/tmp/lifecycle/launcher`
with arguments `["app", startCommand, rawExecutionMetadata]`, the injected
environment, the file-descriptor limit and the application log source. -/
def appRunAction (app : DesireAppRequest) (user : List Char) (port0 numFiles : Nat) : Action :=
  .run user (str "/tmp/lifecycle/launcher")
    [str "app", app.startCommand, app.executionMetadata]
    (createLrpEnv app.environment port0) (some numFiles) AppLogSource

/-- The secure-shell daemon `RunAction`: `/tmp/lifecycle/diego-sshd` bound to
the fixed well-known port, with the host key, the user's authorized key,
environment inheritance and a fatal-only log level. -/
def sshRunAction (app : DesireAppRequest) (user : List Char) (port0 numFiles : Nat)
    (hostKeyPair userKeyPair : KeyPair) : Action :=
  .run user (str "/tmp/lifecycle/diego-sshd")
    [str "-address=" ++ (str "0.0.0.0:" ++ (Nat.repr DefaultSSHPort).data),
     str "-hostKey=" ++ hostKeyPair.pemEncodedPrivateKey,
     str "-authorizedKey=" ++ userKeyPair.authorizedKey,
     str "-inheritDaemonEnv",
     str "-logLevel=fatal"]
    (createLrpEnv app.environment port0) (some numFiles) []

/-- The monitor root: only for the `"port"` or unspecified health-check kind,
a 30-second `Timeout` wrapping the parallel probe of all known ports. -/
def monitorAction (app : DesireAppRequest) (ports : List Nat) (user : List Char) : Option Action :=
  if app.healthCheckType = PortHealthCheckType ∨ app.healthCheckType = UnspecifiedHealthCheckType then
    some (.timeout (getParallelAction ports user) (30 * timeSecond))
  else none

/-- The single `DesiredLRP` literal of the source's final `return`. -/
def buildLRP (app : DesireAppRequest) (rootFSPath user lifecycleURL : List Char)
    (actions : List Action) (monitor : Option Action) (ports : List Nat) (routes : Routes) :
    DesiredLRP :=
  { privileged := false
    domain := AppLRPDomain
    processGuid := app.processGuid
    instances := toInt32 app.numInstances
    routes := routes
    annotationStr := app.etag
    cpuWeight := cpuWeight app.memoryMB
    memoryMb := toInt32 app.memoryMB
    diskMb := toInt32 app.diskMB
    ports := ports
    rootFs := rootFSPath
    logGuid := app.logGuid
    logSource := LRPLogSource
    metricsGuid := app.logGuid
    environmentVariables := []
    setup := some (.serial
      [.download lifecycleURL (str "/tmp/lifecycle")
        (replaceFirstSlashDash (str "docker") ++ str "-lifecycle") user])
    action := some (.codependent actions)
    monitor := monitor
    startTimeout := toUint32 app.healthCheckTimeoutInSeconds
    egressRules := app.egressRules }

/-- Translation of `DockerRecipeBuilder.Build`. `decodeMetadata` stands for
`NewDockerExecutionMetadata` (modelled from the spec: its file is not under
`src/`; the spec fixes only that it decodes the opaque blob or fails with
`MalformedMetadata`, so it is passed as the decoding collaborator).
`some (.error e)` is a build failure, `some (.ok lrp)` a produced run-spec,
`none` a propagated runtime panic (out-of-range access). -/
def Build (decodeMetadata : List Char → Option DockerExecutionMetadata)
    (config : Config) (desiredApp : DesireAppRequest) :
    Option (Except BuildError DesiredLRP) :=
  if desiredApp.dockerImageUrl = [] then some (.error .dockerImageMissing)
  else if desiredApp.dropletUri ≠ [] ∧ desiredApp.dockerImageUrl ≠ [] then
    some (.error .multipleAppSources)
  else if desiredApp.dockerImageUrl = [] then some (.error .noDockerImage)
  else
    match lookupAssoc config.lifecycles (str "docker") with
    | none => some (.error .noLifecycleDefined)
    | some lifecyclePath =>
      let lifecycleURL := lifecycleDownloadURL lifecyclePath config.fileServerURL
      match convertDockerURI desiredApp.dockerImageUrl with
      | none => none
      | some (.error msg) => some (.error (.unexpectedScheme msg))
      | some (.ok rootFSPath) =>
        let numFiles := numFilesOf desiredApp
        match decodeMetadata desiredApp.executionMetadata with
        | none => some (.error .malformedMetadata)
        | some executionMetadata =>
          let user := extractUser executionMetadata
          match extractExposedPorts executionMetadata with
          | none => some (.error .noTcpPortsFound)
          | some desiredAppPorts =>
            let monitor := monitorAction desiredApp desiredAppPorts user
            match desiredAppPorts with
            | [] => none
            | port0 :: _ =>
              let actions := [appRunAction desiredApp user port0 numFiles]
              match ccRouteInfoToRoutes desiredApp.routingInfo desiredAppPorts with
              | none => some (.error .routeConversionFailed)
              | some desiredAppRoutingInfo =>
                let sshStep : Except BuildError (List Action × Routes × List Nat) :=
                  if desiredApp.allowSSH then
                    match config.keyFactory 0 with
                    | none => .error .keyPairGenerationFailed
                    | some hostKeyPair =>
                      match config.keyFactory 1 with
                      | none => .error .keyPairGenerationFailed
                      | some userKeyPair =>
                        .ok (actions ++ [sshRunAction desiredApp user port0 numFiles hostKeyPair userKeyPair],
                          insertRoute desiredAppRoutingInfo DiegoSSHRouteKey
                            (.ssh ⟨2222, userKeyPair.pemEncodedPrivateKey, hostKeyPair.fingerprint⟩),
                          desiredAppPorts ++ [DefaultSSHPort])
                  else .ok (actions, desiredAppRoutingInfo, desiredAppPorts)
                match sshStep with
                | .error e => some (.error e)
                | .ok (finalActions, finalRoutes, finalPorts) =>
                  some (.ok (buildLRP desiredApp rootFSPath user lifecycleURL
                    finalActions monitor finalPorts finalRoutes))

/-- The canonical reference path exactly as claim C2's parenthetical words
it: `index ++ "/" ++ repository`, with `":" ++ tag` appended when the tag is
non-empty. -/
def canonicalRefClaimed (indexName remoteName tag : List Char) : List Char :=
  (indexName ++ str "/" ++ remoteName) ++ (if tag = [] then [] else ':' :: tag)

/-- The canonical reference path of the amended claim C2: the separating
slash is dropped together with the index when the index is empty. -/
def canonicalRef (indexName remoteName tag : List Char) : List Char :=
  (if indexName = [] then remoteName else indexName ++ '/' :: remoteName) ++
  (if tag = [] then [] else ':' :: tag)

/-- The declared ports of the metadata whose protocol is the supported
transport, in declaration order. -/
def tcpPortsOf (m : DockerExecutionMetadata) : List Nat :=
  (m.exposedPorts.filter fun p => decide (p.protocol = str "tcp")).map (fun p => p.port)

/-- Bool-valued recognizer of the `run` action variant. -/
def isRunAction : Action → Bool
  | .run _ _ _ _ _ _ => true
  | _ => false

/-- The argument list of a `run` action (used to inspect the secure-shell
daemon's bind address). -/
def actionArgs : Action → List (List Char)
  | .run _ _ args _ _ _ => args
  | _ => []

/-- Concrete metadata decoder used by the witnesses: every blob decodes to a
metadata value with no user and no declared port. -/
def decodeFixture : List Char → Option DockerExecutionMetadata :=
  fun _ => some ⟨[], []⟩

/-- Concrete key pair returned by the witnesses' key factory. -/
def kpFixture : KeyPair := ⟨str "PEMKEY", str "AUTHKEY", str "FINGERPRINT"⟩

/-- Concrete builder configuration used by the witnesses. -/
def configFixture : Config :=
  ⟨[(str "docker", str "docker_lifecycle/path")], str "http://file-server",
    fun _ => some kpFixture⟩

/-- Concrete request used by the witnesses. -/
def appFixture : DesireAppRequest :=
  { processGuid := str "process-guid"
    dockerImageUrl := str "ubuntu"
    dropletUri := []
    numInstances := 2
    memoryMB := 256
    diskMB := 512
    fileDescriptors := 0
    environment := [⟨str "FOO", str "bar"⟩]
    startCommand := str "start"
    executionMetadata := str "metadata-blob"
    routingInfo := ⟨false, str "route-payload"⟩
    healthCheckType := []
    healthCheckTimeoutInSeconds := 60
    allowSSH := false
    etag := str "etag"
    logGuid := str "log-guid"
    egressRules := [str "egress-rule"] }

/-- The run-spec the witnesses' request builds without the secure-shell
flag. -/
def lrpFixture : DesiredLRP :=
  buildLRP appFixture (str "docker:///library/ubuntu") (str "root")
    (lifecycleDownloadURL (str "docker_lifecycle/path") (str "http://file-server"))
    [appRunAction appFixture (str "root") DefaultPort DefaultFileDescriptorLimit]
    (monitorAction appFixture [DefaultPort] (str "root"))
    [DefaultPort]
    [(str "cf-router", RouteValue.raw (str "route-payload"))]

/-- The run-spec the witnesses' request builds with the secure-shell flag. -/
def lrpFixtureSSH : DesiredLRP :=
  buildLRP { appFixture with allowSSH := true } (str "docker:///library/ubuntu") (str "root")
    (lifecycleDownloadURL (str "docker_lifecycle/path") (str "http://file-server"))
    [appRunAction { appFixture with allowSSH := true } (str "root") DefaultPort DefaultFileDescriptorLimit,
     sshRunAction { appFixture with allowSSH := true } (str "root") DefaultPort
       DefaultFileDescriptorLimit kpFixture kpFixture]
    (monitorAction { appFixture with allowSSH := true } [DefaultPort] (str "root"))
    [DefaultPort, DefaultSSHPort]
    (insertRoute [(str "cf-router", RouteValue.raw (str "route-payload"))] DiegoSSHRouteKey
      (.ssh ⟨2222, str "PEMKEY", str "FINGERPRINT"⟩))


theorem foldl_tcp_eq (l : List DockerPortMD) (acc : List Nat) :
    l.foldl (fun acc port => if port.protocol = str "tcp" then acc ++ [port.port] else acc) acc =
      acc ++ (l.filter fun p => decide (p.protocol = str "tcp")).map (fun p => p.port) := by
  induction l generalizing acc with
  | nil => simp
  | cons p ps ih =>
    by_cases hp : p.protocol = str "tcp"
    · simp [hp, ih, List.filter_cons, List.append_assoc]
    · simp [hp, ih, List.filter_cons]

theorem extract_eq (m : DockerExecutionMetadata) :
    extractExposedPorts m =
      (if (if m.exposedPorts = [] then [DefaultPort] else []) ++ tcpPortsOf m = [] then none
       else some ((if m.exposedPorts = [] then [DefaultPort] else []) ++ tcpPortsOf m)) := by
  simp only [extractExposedPorts, tcpPortsOf]
  rw [foldl_tcp_eq]

/-- Claim C4: port extraction yields the single platform-default port when the
metadata declares zero ports; when at least one port is declared the result is
exactly the declared tcp-protocol ports in declaration order; when ports are
declared but none is tcp the extraction fails; and every successful extraction
returns a non-empty list. -/
theorem thm_C4 (m : DockerExecutionMetadata) :
    (m.exposedPorts = [] → extractExposedPorts m = some [DefaultPort]) ∧
    (m.exposedPorts ≠ [] → tcpPortsOf m ≠ [] → extractExposedPorts m = some (tcpPortsOf m)) ∧
    (m.exposedPorts ≠ [] → tcpPortsOf m = [] → extractExposedPorts m = none) ∧
    (∀ ps, extractExposedPorts m = some ps → ps ≠ []) := by
  refine ⟨?_, ?_, ?_, ?_⟩
  · intro h0; rw [extract_eq]; simp [h0, tcpPortsOf]
  · intro h0 h1; rw [extract_eq]; simp [h0, h1]
  · intro h0 h1; rw [extract_eq]; simp [h0, h1]
  · intro ps hps
    rw [extract_eq] at hps
    by_cases h0 : m.exposedPorts = []
    · simp [h0, tcpPortsOf] at hps
      simp [← hps]
    · by_cases h1 : tcpPortsOf m = []
      · simp [h0, h1] at hps
      · simp [h0, h1] at hps
        simp [← hps, h1]

/-- Witness for claim C4 at a concrete metadata value with one declared tcp
port. -/
theorem thm_C4_w : extractExposedPorts ⟨str "vcap", [⟨9999, str "tcp"⟩]⟩ = some [9999] := by
  have h := (thm_C4 ⟨str "vcap", [⟨9999, str "tcp"⟩]⟩).2.1 (by decide) (by decide)
  exact h.trans (by decide)

/-- Claim C5: when both the container image reference and the alternate source
are set and non-empty, Build fails with ConflictingSources
(`ErrMultipleAppSources`); when neither is set, Build fails with
MissingImageSource (`ErrDockerImageMissing`); in both cases the result is an
error, so no run-spec is produced. -/
theorem thm_C5 (dm : List Char → Option DockerExecutionMetadata) (cfg : Config)
    (app : DesireAppRequest) :
    (app.dockerImageUrl ≠ [] → app.dropletUri ≠ [] →
      Build dm cfg app = some (.error .multipleAppSources)) ∧
    (app.dockerImageUrl = [] → app.dropletUri = [] →
      Build dm cfg app = some (.error .dockerImageMissing)) := by
  constructor
  · intro hi hd
    unfold Build
    rw [if_neg hi, if_pos ⟨hd, hi⟩]
  · intro hi _
    unfold Build
    rw [if_pos hi]

/-- Claim C9: Build never returns `ErrNoDockerImage`; the second empty-image
check is unreachable because the first check already rejects every request
with an empty image reference. -/
theorem thm_C9 (dm : List Char → Option DockerExecutionMetadata) (cfg : Config)
    (app : DesireAppRequest) : Build dm cfg app ≠ some (.error .noDockerImage) := by
  intro h
  unfold Build at h
  repeat (any_goals (split at h))
  all_goals simp_all

/-- Claim C1: the three reference strings of the spec's test vectors parse to
exactly the stated triples: `"ubuntu"` to index `""`, repository
`"library/ubuntu"`, tag `""`; `"myregistry.com:5000/foo/bar:1.0"` to index
`"myregistry.com:5000"`, repository `"foo/bar"`, tag `"1.0"`; and
`"docker.io/library/nginx"` to index `"docker.io"`, repository
`"library/nginx"`, tag `""`. -/
theorem thm_C1 :
    parseDockerRepoUrl (str "ubuntu") = some ([], str "library/ubuntu", []) ∧
    parseDockerRepoUrl (str "myregistry.com:5000/foo/bar:1.0") =
      some (str "myregistry.com:5000", str "foo/bar", str "1.0") ∧
    parseDockerRepoUrl (str "docker.io/library/nginx") =
      some (str "docker.io", str "library/nginx", []) := by
  refine ⟨by decide, by decide, by decide⟩

/-- Claim C8 (code bug): the scheme-free input `"docker.io"` — a single
segment equal to the default index hostname — makes `parseDockerRepoUrl` read
`nameParts[1]` out of range (a Go runtime panic, modelled as `none`), so
normalization does not return a result on it, contradicting the claim. -/
theorem thm_C8 :
    parseDockerRepoUrl (str "docker.io") = none ∧
    convertDockerURI (str "docker.io") = none ∧
    containsSeq (str "://") (str "docker.io") = false := by
  refine ⟨by decide, by decide, by decide⟩

/-- Claim C2, counterexample: parsing `"ubuntu"` gives the triple
`("", "library/ubuntu", "")`; the canonical reference path as the claim words
it is `"" ++ "/" ++ "library/ubuntu" = "/library/ubuntu"`, and re-parsing that
yields repository `"/library/ubuntu"`, not `"library/ubuntu"` — so
canonicalization as claimed is not idempotent. -/
theorem thm_C2_cex :
    parseDockerRepoUrl (str "ubuntu") = some ([], str "library/ubuntu", []) ∧
    canonicalRefClaimed [] (str "library/ubuntu") [] = str "/library/ubuntu" ∧
    parseDockerRepoUrl (str "/library/ubuntu") = some ([], str "/library/ubuntu", []) ∧
    str "/library/ubuntu" ≠ str "library/ubuntu" := by
  refine ⟨by decide, by decide, by decide, by decide⟩

/-- Claim C3, counterexample: for `"ubuntu"` (whose parsed index is empty) the
serialized reference is `docker:///library/ubuntu` — the separating slash
before the repository is kept — and not `docker://library/ubuntu` as the
claim (path equal to the repository alone) requires. -/
theorem thm_C3_cex :
    convertDockerURI (str "ubuntu") = some (.ok (str "docker:///library/ubuntu")) ∧
    convertDockerURI (str "ubuntu") ≠ some (.ok (str "docker://library/ubuntu")) := by
  refine ⟨by decide, by decide⟩

/-- Witness for claim C5 at two concrete requests, one with both sources set
and one with neither. -/
theorem thm_C5_w :
    Build decodeFixture configFixture { appFixture with dropletUri := str "droplet" } =
      some (.error .multipleAppSources) ∧
    Build decodeFixture configFixture { appFixture with dockerImageUrl := [] } =
      some (.error .dockerImageMissing) :=
  ⟨(thm_C5 decodeFixture configFixture { appFixture with dropletUri := str "droplet" }).1
      (by decide) (by decide),
   (thm_C5 decodeFixture configFixture { appFixture with dockerImageUrl := [] }).2
      rfl (by decide)⟩


theorem splitN2_snd_eq_none (s : List Char) : (splitN2 s).2 = none ↔ '/' ∉ s := by
  induction s with
  | nil => simp [splitN2]
  | cons c cs ih =>
    by_cases hc : c = '/'
    · subst hc; simp [splitN2]
    · simp [splitN2, hc, ih, Ne.symm hc]

theorem splitN2_fst_not_mem (s : List Char) : '/' ∉ (splitN2 s).1 := by
  induction s with
  | nil => simp [splitN2]
  | cons c cs ih =>
    by_cases hc : c = '/'
    · subst hc; simp [splitN2]
    · simp [splitN2, hc, ih, Ne.symm hc]

theorem splitN2_append (a b : List Char) (h : '/' ∉ a) :
    splitN2 (a ++ '/' :: b) = (a, some b) := by
  induction a with
  | nil => simp [splitN2]
  | cons c cs ih =>
    have hc : ¬c = '/' := by intro hc; exact h (by simp [hc])
    have hcs : '/' ∉ cs := fun hm => h (by simp [hm])
    simp [splitN2, hc, ih hcs]

theorem splitN2_recon (s p rest : List Char) (h : splitN2 s = (p, some rest)) :
    s = p ++ '/' :: rest := by
  induction s generalizing p with
  | nil => simp [splitN2] at h
  | cons c cs ih =>
    by_cases hc : c = '/'
    · subst hc
      simp [splitN2] at h
      simp [h.1.symm, h.2]
    · simp [splitN2, hc] at h
      obtain ⟨h1, h2⟩ := h
      have hcs : splitN2 cs = ((splitN2 cs).1, some rest) := by rw [← h2]
      have hcs2 := ih (splitN2 cs).1 hcs
      subst h1
      rw [List.cons_append]
      exact congrArg (List.cons c) hcs2

theorem lastIndexOf_eq_none (l : List Char) (c : Char) :
    lastIndexOf l c = none ↔ c ∉ l := by
  induction l with
  | nil => simp [lastIndexOf]
  | cons x xs ih =>
    cases hx : lastIndexOf xs c with
    | some n =>
      have hmem : c ∈ xs := by
        by_contra hmem
        rw [ih.mpr hmem] at hx
        cases hx
      simp [lastIndexOf, hx, hmem]
    | none =>
      by_cases hxc : x = c
      · simp [lastIndexOf, hx, hxc]
      · simp [lastIndexOf, hx, hxc, ih.mp hx, Ne.symm hxc]

theorem lastIndexOf_recon (l : List Char) (c : Char) (n : Nat)
    (h : lastIndexOf l c = some n) :
    l = l.take n ++ c :: l.drop (n + 1) ∧ c ∉ l.drop (n + 1) := by
  induction l generalizing n with
  | nil => simp [lastIndexOf] at h
  | cons x xs ih =>
    cases hx : lastIndexOf xs c with
    | some m =>
      rw [lastIndexOf, hx] at h
      cases h
      obtain ⟨ih1, ih2⟩ := ih m hx
      constructor
      · simpa using congrArg (x :: ·) ih1
      · simpa using ih2
    | none =>
      rw [lastIndexOf, hx] at h
      by_cases hxc : x = c
      · rw [if_pos hxc] at h
        cases h
        subst hxc
        simp [(lastIndexOf_eq_none xs x).mp hx]
      · rw [if_neg hxc] at h; cases h

theorem lastIndexOf_append_cons (r t : List Char) (h : ':' ∉ t) :
    lastIndexOf (r ++ ':' :: t) ':' = some r.length := by
  induction r with
  | nil => simp [lastIndexOf, (lastIndexOf_eq_none t ':').mpr h]
  | cons x xs ih => simp [lastIndexOf, ih]

theorem drop_after_colon (r t : List Char) : (r ++ ':' :: t).drop (r.length + 1) = t := by
  rw [List.append_cons]
  have : r.length + 1 = (r ++ [':']).length := by simp
  rw [this, List.drop_left]

theorem take_before_colon (r t : List Char) : (r ++ ':' :: t).take r.length = r :=
  List.take_left r (':' :: t)

theorem parseTag_append (r t : List Char) (hc : ':' ∉ t) (hs : '/' ∉ t) :
    parseDockerRepositoryTag (r ++ ':' :: t) = (r, t) := by
  unfold parseDockerRepositoryTag
  rw [lastIndexOf_append_cons r t hc]
  simp [drop_after_colon, take_before_colon, hs]

theorem parseTag_spec (rm r t : List Char) (h : parseDockerRepositoryTag rm = (r, t)) :
    (r = rm ∧ t = []) ∨ (rm = r ++ ':' :: t ∧ ':' ∉ t ∧ '/' ∉ t) := by
  unfold parseDockerRepositoryTag at h
  split at h
  · cases h
    exact Or.inl ⟨rfl, rfl⟩
  · rename_i n heq
    split at h
    · rename_i hsl
      cases h
      exact Or.inl ⟨rfl, rfl⟩
    · rename_i hsl
      cases h
      obtain ⟨hrecon, hnot⟩ := lastIndexOf_recon rm ':' n heq
      exact Or.inr ⟨hrecon, hnot, hsl⟩

theorem parseTag_slash (rm r t : List Char) (h : parseDockerRepositoryTag rm = (r, t)) :
    '/' ∈ rm ↔ '/' ∈ r := by
  rcases parseTag_spec rm r t h with ⟨h1, _⟩ | ⟨h1, _, h3⟩
  · rw [h1]
  · subst h1
    simp [List.mem_append, h3]

theorem parseTag_fst_split (rm r t : List Char) (h : parseDockerRepositoryTag rm = (r, t))
    (hm : '/' ∈ rm) :
    ∃ f rest, splitN2 r = (f, some rest) ∧ (splitN2 rm).1 = f := by
  have hr : '/' ∈ r := (parseTag_slash rm r t h).mp hm
  have h2 : (splitN2 r).2 ≠ none := fun hnone => (splitN2_snd_eq_none r).mp hnone hr
  cases hsp : (splitN2 r).2 with
  | none => exact absurd hsp h2
  | some rest =>
    have hsp2 : splitN2 r = ((splitN2 r).1, some rest) := by rw [← hsp]
    have hrecon : r = (splitN2 r).1 ++ '/' :: rest :=
      splitN2_recon r (splitN2 r).1 rest hsp2
    refine ⟨(splitN2 r).1, rest, hsp2, ?_⟩
    rcases parseTag_spec rm r t h with ⟨h1, _⟩ | ⟨h1, _, _⟩
    · rw [h1]
    · have hkey : splitN2 rm = ((splitN2 r).1, some (rest ++ ':' :: t)) := by
        rw [h1]
        conv_lhs => rw [hrecon, List.append_assoc, List.cons_append]
        exact splitN2_append _ _ (splitN2_fst_not_mem r)
      rw [hkey]


theorem mem_withLibrary (x : List Char) : '/' ∈ withLibrary x := by
  unfold withLibrary
  by_cases h : '/' ∈ x
  · simp [h]
  · rw [if_neg h]
    simp [List.mem_append]
    left
    decide

theorem withLibrary_split (x : List Char) (h : '/' ∉ x) :
    splitN2 (withLibrary x) = (str "library", some x) := by
  unfold withLibrary
  rw [if_neg h]
  have he : str "library/" ++ x = str "library" ++ '/' :: x := rfl
  rw [he]
  exact splitN2_append _ _ (by decide)

theorem officialRegistry_iff (p : List Char × Option (List Char)) :
    officialRegistry p = true ↔
      (p.2 = none ∨ p.1 = DockerIndexServer ∨
        ('.' ∉ p.1 ∧ ':' ∉ p.1 ∧ p.1 ≠ str "localhost")) := by
  simp [officialRegistry]

theorem parse_facts (s i r t : List Char) (h : parseDockerRepoUrl s = some (i, r, t)) :
    (t ≠ [] → ':' ∉ t ∧ '/' ∉ t) ∧
    (i = [] → ∃ f rest, splitN2 r = (f, some rest) ∧
      f ≠ DockerIndexServer ∧ '.' ∉ f ∧ ':' ∉ f ∧ f ≠ str "localhost") ∧
    (i = DockerIndexServer → '/' ∈ r) ∧
    (i ≠ [] → i ≠ DockerIndexServer → '/' ∉ i ∧
      ¬('.' ∉ i ∧ ':' ∉ i ∧ i ≠ str "localhost")) := by
  unfold parseDockerRepoUrl at h
  by_cases hoff : officialRegistry (splitN2 s) = true
  · rw [if_pos hoff] at h
    by_cases hdio : (splitN2 s).1 = DockerIndexServer
    · rw [if_pos hdio] at h
      cases hsp : (splitN2 s).2 with
      | none => rw [hsp] at h; cases h
      | some rest =>
        rw [hsp] at h
        simp only [Option.some.injEq, Prod.mk.injEq] at h
        obtain ⟨h1, h2, h3⟩ := h
        have hP : parseDockerRepositoryTag (withLibrary rest) = (r, t) := by
          rw [← h2, ← h3]
        refine ⟨?_, ?_, ?_, ?_⟩
        · intro ht
          rcases parseTag_spec _ _ _ hP with ⟨_, h0⟩ | ⟨_, hc, hs2⟩
          · exact absurd h0 ht
          · exact ⟨hc, hs2⟩
        · intro h0
          rw [h0] at h1
          exact absurd h1.symm (by decide)
        · intro _
          exact (parseTag_slash _ _ _ hP).mp (mem_withLibrary rest)
        · intro _ hne
          exact absurd h1.symm hne
    · rw [if_neg hdio] at h
      simp only [Option.some.injEq, Prod.mk.injEq] at h
      obtain ⟨h1, h2, h3⟩ := h
      have hP : parseDockerRepositoryTag (withLibrary s) = (r, t) := by
        rw [← h2, ← h3]
      refine ⟨?_, ?_, ?_, ?_⟩
      · intro ht
        rcases parseTag_spec _ _ _ hP with ⟨_, h0⟩ | ⟨_, hc, hs2⟩
        · exact absurd h0 ht
        · exact ⟨hc, hs2⟩
      · intro _
        obtain ⟨f, rest, hfsp, hfst⟩ := parseTag_fst_split _ _ _ hP (mem_withLibrary s)
        have hfacts : f ≠ DockerIndexServer ∧ '.' ∉ f ∧ ':' ∉ f ∧ f ≠ str "localhost" := by
          by_cases hs0 : '/' ∈ s
          · have hwl : withLibrary s = s := by simp [withLibrary, hs0]
            rw [hwl] at hfst
            have hn1 : (splitN2 s).2 ≠ none := fun hn => (splitN2_snd_eq_none s).mp hn hs0
            rcases (officialRegistry_iff (splitN2 s)).mp hoff with hc1 | hc2 | hc3
            · exact absurd hc1 hn1
            · exact absurd hc2 hdio
            · rw [← hfst]
              exact ⟨fun hd => hdio (hfst ▸ hd), hc3.1, hc3.2.1, hc3.2.2⟩
          · rw [withLibrary_split s hs0] at hfst
            simp only at hfst
            rw [← hfst]
            refine ⟨by decide, by decide, by decide, by decide⟩
        exact ⟨f, rest, hfsp, hfacts.1, hfacts.2.1, hfacts.2.2.1, hfacts.2.2.2⟩
      · intro h0
        exact absurd (h1.trans h0) (by decide)
      · intro hne _
        exact absurd h1.symm hne
  · rw [if_neg hoff] at h
    cases hsp : (splitN2 s).2 with
    | none => rw [hsp] at h; cases h
    | some rest =>
      rw [hsp] at h
      simp only [Option.some.injEq, Prod.mk.injEq] at h
      obtain ⟨h1, h2, h3⟩ := h
      have hP : parseDockerRepositoryTag rest = (r, t) := by
        rw [← h2, ← h3]
      refine ⟨?_, ?_, ?_, ?_⟩
      · intro ht
        rcases parseTag_spec _ _ _ hP with ⟨_, h0⟩ | ⟨_, hc, hs2⟩
        · exact absurd h0 ht
        · exact ⟨hc, hs2⟩
      · intro h0
        have hplain : '.' ∉ (splitN2 s).1 ∧ ':' ∉ (splitN2 s).1 ∧
            (splitN2 s).1 ≠ str "localhost" := by
          rw [h1, h0]
          refine ⟨by simp, by simp, by decide⟩
        exact absurd ((officialRegistry_iff (splitN2 s)).mpr (Or.inr (Or.inr hplain))) hoff
      · intro h0
        have : (splitN2 s).1 = DockerIndexServer := by rw [h1, h0]
        exact absurd ((officialRegistry_iff (splitN2 s)).mpr (Or.inr (Or.inl this))) hoff
      · intro _ _
        constructor
        · rw [← h1]
          exact splitN2_fst_not_mem s
        · intro hplain
          rw [← h1] at hplain
          exact absurd ((officialRegistry_iff (splitN2 s)).mpr (Or.inr (Or.inr hplain))) hoff


theorem parse_of_split_official (s2 f x : List Char)
    (hsp : splitN2 s2 = (f, some x))
    (hplain : '.' ∉ f ∧ ':' ∉ f ∧ f ≠ str "localhost")
    (hfd : f ≠ DockerIndexServer) (hmem : '/' ∈ s2) :
    parseDockerRepoUrl s2 =
      some ([], (parseDockerRepositoryTag s2).1, (parseDockerRepositoryTag s2).2) := by
  have hoff : officialRegistry (f, some x) = true :=
    (officialRegistry_iff (f, some x)).mpr (Or.inr (Or.inr hplain))
  have hwl : withLibrary s2 = s2 := by simp [withLibrary, hmem]
  simp only [parseDockerRepoUrl, hsp, hoff, if_true, hwl]
  rw [if_neg hfd]

theorem parse_of_split_dio (s2 x : List Char)
    (hsp : splitN2 s2 = (DockerIndexServer, some x)) (hmem : '/' ∈ x) :
    parseDockerRepoUrl s2 =
      some (DockerIndexServer, (parseDockerRepositoryTag x).1, (parseDockerRepositoryTag x).2) := by
  have hoff : officialRegistry (DockerIndexServer, some x) = true :=
    (officialRegistry_iff (DockerIndexServer, some x)).mpr (Or.inr (Or.inl rfl))
  have hwl : withLibrary x = x := by simp [withLibrary, hmem]
  simp only [parseDockerRepoUrl, hsp, hoff, if_true, hwl, if_pos rfl]

theorem parse_of_split_nonofficial (s2 f x : List Char)
    (hsp : splitN2 s2 = (f, some x))
    (hnplain : ¬('.' ∉ f ∧ ':' ∉ f ∧ f ≠ str "localhost"))
    (hfd : f ≠ DockerIndexServer) :
    parseDockerRepoUrl s2 =
      some (f, (parseDockerRepositoryTag x).1, (parseDockerRepositoryTag x).2) := by
  have hoff : officialRegistry (f, some x) = false := by
    rw [Bool.eq_false_iff]
    intro hco
    rcases (officialRegistry_iff (f, some x)).mp hco with h1 | h2 | h3
    · cases h1
    · exact hfd h2
    · exact hnplain h3
  simp only [parseDockerRepoUrl, hsp, hoff]
  simp

/-- Claim C2 (amended): for every scheme-free reference string on which
parsing succeeds, re-parsing the canonical reference path — `index ++ "/" ++
repository` when the index is non-empty, the repository alone when the index
is empty, with `":" ++ tag` appended when the tag is non-empty — yields the
same index/repository/tag triple, provided the tag is non-empty or the
repository admits no further tag extraction. -/
theorem thm_C2 (s i r t : List Char)
    (h : parseDockerRepoUrl s = some (i, r, t))
    (hx : t ≠ [] ∨ parseDockerRepositoryTag r = (r, [])) :
    parseDockerRepoUrl (canonicalRef i r t) = some (i, r, t) := by
  obtain ⟨hTag, hEmpty, hDio, hOther⟩ := parse_facts s i r t h
  have hTP : parseDockerRepositoryTag (r ++ (if t = [] then [] else ':' :: t)) = (r, t) := by
    by_cases ht : t = []
    · subst ht
      rw [if_pos rfl, List.append_nil]
      exact hx.resolve_left (by simp)
    · rw [if_neg ht]
      obtain ⟨hc, hs2⟩ := hTag ht
      exact parseTag_append r t hc hs2
  by_cases hi0 : i = []
  · subst hi0
    obtain ⟨f, rest, hsp, hfd, hfdot, hfcol, hfl⟩ := hEmpty rfl
    have hrrecon : r = f ++ '/' :: rest := splitN2_recon r f rest hsp
    have hfslash : '/' ∉ f := by
      have hn := splitN2_fst_not_mem r
      rw [hsp] at hn
      exact hn
    have hcanon0 : canonicalRef [] r t = r ++ (if t = [] then [] else ':' :: t) := by
      unfold canonicalRef
      rw [if_pos rfl]
    have hre2 : r ++ (if t = [] then [] else ':' :: t) =
        f ++ '/' :: (rest ++ (if t = [] then [] else ':' :: t)) := by
      rw [hrrecon, List.append_assoc, List.cons_append]
    have hsplit : splitN2 (r ++ (if t = [] then [] else ':' :: t)) =
        (f, some (rest ++ (if t = [] then [] else ':' :: t))) := by
      rw [hre2]
      exact splitN2_append _ _ hfslash
    have hmem : '/' ∈ r ++ (if t = [] then [] else ':' :: t) := by
      rw [hre2]
      simp
    rw [hcanon0, parse_of_split_official _ _ _ hsplit ⟨hfdot, hfcol, hfl⟩ hfd hmem, hTP]
  · by_cases hdio : i = DockerIndexServer
    · subst hdio
      have hcanon0 : canonicalRef DockerIndexServer r t =
          DockerIndexServer ++ '/' :: (r ++ (if t = [] then [] else ':' :: t)) := by
        unfold canonicalRef
        rw [if_neg (by decide), List.append_assoc, List.cons_append]
      have hsplit : splitN2 (DockerIndexServer ++ '/' :: (r ++ (if t = [] then [] else ':' :: t))) =
          (DockerIndexServer, some (r ++ (if t = [] then [] else ':' :: t))) :=
        splitN2_append _ _ (by decide)
      have hmem : '/' ∈ r ++ (if t = [] then [] else ':' :: t) := by
        simp [List.mem_append]
        exact Or.inl (hDio rfl)
      rw [hcanon0, parse_of_split_dio _ _ hsplit hmem, hTP]
    · obtain ⟨hslash, hnplain⟩ := hOther hi0 hdio
      have hcanon0 : canonicalRef i r t =
          i ++ '/' :: (r ++ (if t = [] then [] else ':' :: t)) := by
        unfold canonicalRef
        rw [if_neg hi0, List.append_assoc, List.cons_append]
      have hsplit : splitN2 (i ++ '/' :: (r ++ (if t = [] then [] else ':' :: t))) =
          (i, some (r ++ (if t = [] then [] else ':' :: t))) :=
        splitN2_append _ _ hslash
      rw [hcanon0, parse_of_split_nonofficial _ _ _ hsplit hnplain hdio, hTP]

/-- Witness for the amended claim C2 at the concrete reference
`"myregistry.com:5000/foo/bar:1.0"`, whose tag is non-empty. -/
theorem thm_C2_w :
    parseDockerRepoUrl (canonicalRef (str "myregistry.com:5000") (str "foo/bar") (str "1.0")) =
      some (str "myregistry.com:5000", str "foo/bar", str "1.0") :=
  thm_C2 (str "myregistry.com:5000/foo/bar:1.0") _ _ _ (by decide) (Or.inl (by decide))


theorem convert_of_parse (s i r t : List Char)
    (hns : containsSeq (str "://") s = false)
    (h : parseDockerRepoUrl s = some (i, r, t)) :
    convertDockerURI s = some (.ok (urlToString ⟨DockerScheme, i ++ str "/" ++ r, t⟩)) := by
  unfold convertDockerURI
  rw [hns, h]
  simp

/-- Claim C3 (amended): for every scheme-free reference whose parsed index is
empty, the canonical serialized reference is `docker://` followed by a slash
(the empty index is omitted but its separating `/` is kept) and the escaped
repository, with `#tag` appended exactly when the tag is non-empty. -/
theorem thm_C3 (s r t : List Char)
    (hns : containsSeq (str "://") s = false)
    (h : parseDockerRepoUrl s = some ([], r, t)) :
    convertDockerURI s =
      some (.ok (str "docker://" ++ ('/' :: escapeList .path r) ++
        (if t = [] then [] else '#' :: escapeList .fragment t))) := by
  rw [convert_of_parse s [] r t hns h]
  dsimp only [urlToString]
  rw [if_neg (by decide : ¬DockerScheme = []), if_neg (by decide : ¬DockerScheme = [])]
  have hE : escapeList .path ([] ++ str "/" ++ r) = '/' :: escapeList .path r := by
    have h0 : ([] : List Char) ++ str "/" ++ r = '/' :: r := rfl
    rw [h0]
    simp only [escapeList]
    rw [show escapeChar '/' EscapeMode.path = ['/'] from by decide]
    rfl
  rw [hE]
  rw [show (DockerScheme ++ [':']) ++ str "//" = str "docker://" from by decide]

/-- Witness for the amended claim C3 at the concrete input `"ubuntu"`. -/
theorem thm_C3_w :
    convertDockerURI (str "ubuntu") = some (.ok (str "docker:///library/ubuntu")) := by
  have h := thm_C3 (str "ubuntu") (str "library/ubuntu") [] (by decide) (by decide)
  rw [h]
  decide


theorem build_ok_inv (dm : List Char → Option DockerExecutionMetadata) (cfg : Config)
    (app : DesireAppRequest) (r : DesiredLRP)
    (h : Build dm cfg app = some (.ok r)) :
    ∃ lifecyclePath rootFSPath md port0 restPorts routes0,
      lookupAssoc cfg.lifecycles (str "docker") = some lifecyclePath ∧
      convertDockerURI app.dockerImageUrl = some (.ok rootFSPath) ∧
      dm app.executionMetadata = some md ∧
      extractExposedPorts md = some (port0 :: restPorts) ∧
      ccRouteInfoToRoutes app.routingInfo (port0 :: restPorts) = some routes0 ∧
      ((app.allowSSH = false ∧
        r = buildLRP app rootFSPath (extractUser md)
          (lifecycleDownloadURL lifecyclePath cfg.fileServerURL)
          [appRunAction app (extractUser md) port0 (numFilesOf app)]
          (monitorAction app (port0 :: restPorts) (extractUser md))
          (port0 :: restPorts) routes0) ∨
       (app.allowSSH = true ∧ ∃ hostKP userKP,
        cfg.keyFactory 0 = some hostKP ∧ cfg.keyFactory 1 = some userKP ∧
        r = buildLRP app rootFSPath (extractUser md)
          (lifecycleDownloadURL lifecyclePath cfg.fileServerURL)
          [appRunAction app (extractUser md) port0 (numFilesOf app),
           sshRunAction app (extractUser md) port0 (numFilesOf app) hostKP userKP]
          (monitorAction app (port0 :: restPorts) (extractUser md))
          ((port0 :: restPorts) ++ [DefaultSSHPort])
          (insertRoute routes0 DiegoSSHRouteKey
            (.ssh ⟨2222, userKP.pemEncodedPrivateKey, hostKP.fingerprint⟩)))) := by
  by_cases h1 : app.dockerImageUrl = []
  · simp [Build, h1] at h
  by_cases h2 : app.dropletUri ≠ [] ∧ app.dockerImageUrl ≠ []
  · simp [Build, h1, h2] at h
  have hdrop : app.dropletUri = [] := by
    by_contra hd
    exact h2 ⟨hd, h1⟩
  cases hlk : lookupAssoc cfg.lifecycles (str "docker") with
  | none => simp [Build, h1, h2, hdrop, hlk] at h
  | some lifecyclePath =>
  cases hcv : convertDockerURI app.dockerImageUrl with
  | none => simp [Build, h1, h2, hdrop, hlk, hcv] at h
  | some ex =>
  cases ex with
  | error msg => simp [Build, h1, h2, hdrop, hlk, hcv] at h
  | ok rootFSPath =>
  cases hdm : dm app.executionMetadata with
  | none => simp [Build, h1, h2, hdrop, hlk, hcv, hdm] at h
  | some md =>
  cases hep : extractExposedPorts md with
  | none => simp [Build, h1, h2, hdrop, hlk, hcv, hdm, hep] at h
  | some ports =>
  cases ports with
  | nil => simp [Build, h1, h2, hdrop, hlk, hcv, hdm, hep] at h
  | cons port0 restPorts =>
  cases hcc : ccRouteInfoToRoutes app.routingInfo (port0 :: restPorts) with
  | none => simp [Build, h1, h2, hdrop, hlk, hcv, hdm, hep, hcc] at h
  | some routes0 =>
  by_cases hssh : app.allowSSH = true
  · cases hk0 : cfg.keyFactory 0 with
    | none => simp [Build, h1, h2, hdrop, hlk, hcv, hdm, hep, hcc, hssh, hk0] at h
    | some hostKP =>
    cases hk1 : cfg.keyFactory 1 with
    | none => simp [Build, h1, h2, hdrop, hlk, hcv, hdm, hep, hcc, hssh, hk0, hk1] at h
    | some userKP =>
    simp [Build, h1, h2, hdrop, hlk, hcv, hdm, hep, hcc, hssh, hk0, hk1] at h
    exact ⟨lifecyclePath, rootFSPath, md, port0, restPorts, routes0, rfl, rfl, rfl, hep, hcc,
      Or.inr ⟨hssh, hostKP, userKP, rfl, rfl, h.symm⟩⟩
  · have hssh2 : app.allowSSH = false := by
      cases hb : app.allowSSH
      · rfl
      · exact absurd hb hssh
    simp [Build, h1, h2, hdrop, hlk, hcv, hdm, hep, hcc, hssh2] at h
    exact ⟨lifecyclePath, rootFSPath, md, port0, restPorts, routes0, rfl, rfl, rfl, hep, hcc,
      Or.inl ⟨hssh2, h.symm⟩⟩


theorem insertRoute_length (rs : Routes) (k : List Char) (v : RouteValue)
    (h : ∀ q ∈ rs, q.1 ≠ k) : (insertRoute rs k v).length = rs.length + 1 := by
  unfold insertRoute
  rw [if_neg]
  · simp
  · simp only [List.any_eq_true, decide_eq_true_iff]
    rintro ⟨q, hq, hqk⟩
    exact h q hq hqk

theorem insertRoute_mem (rs : Routes) (k : List Char) (v : RouteValue)
    (h : ∀ q ∈ rs, q.1 ≠ k) : (k, v) ∈ insertRoute rs k v := by
  unfold insertRoute
  rw [if_neg]
  · simp
  · simp only [List.any_eq_true, decide_eq_true_iff]
    rintro ⟨q, hq, hqk⟩
    exact h q hq hqk

theorem ccRoutes_no_ssh (info : CCRouteInfo) (ports : List Nat) (rts : Routes)
    (h : ccRouteInfoToRoutes info ports = some rts) :
    ∀ q ∈ rts, q.1 ≠ DiegoSSHRouteKey := by
  unfold ccRouteInfoToRoutes at h
  by_cases hm : info.malformed
  · simp [hm] at h
  · simp only [hm, Bool.false_eq_true, if_false, ite_false, Option.some.injEq] at h
    subst h
    intro q hq
    simp at hq
    subst hq
    exact (by decide : str "cf-router" ≠ DiegoSSHRouteKey)

/-- Claim C10: every successfully built run-spec has the privileged flag
false and an empty container-level environment-variable list, for every
request, decoder and configuration. -/
theorem thm_C10 (dm : List Char → Option DockerExecutionMetadata) (cfg : Config)
    (app : DesireAppRequest) (r : DesiredLRP)
    (h : Build dm cfg app = some (.ok r)) :
    r.privileged = false ∧ r.environmentVariables = [] := by
  obtain ⟨lp, rfs, md, p0, ps, rts, _, _, _, _, _, hcase⟩ := build_ok_inv dm cfg app r h
  rcases hcase with ⟨_, hr⟩ | ⟨_, _, _, _, _, hr⟩
  · subst hr
    exact ⟨rfl, rfl⟩
  · subst hr
    exact ⟨rfl, rfl⟩

/-- Witness for claim C10 at a concrete successful build. -/
theorem thm_C10_w : lrpFixture.privileged = false ∧ lrpFixture.environmentVariables = [] :=
  thm_C10 decodeFixture configFixture appFixture lrpFixture rfl

/-- Claim C7: for every successful build, the monitor root equals the
30-second bounded wait wrapping the parallel probe of all extracted ports
rooted at the extracted run-as-user exactly when the health-check kind is
"port" or unspecified, and is absent for every other kind. -/
theorem thm_C7 (dm : List Char → Option DockerExecutionMetadata) (cfg : Config)
    (app : DesireAppRequest) (r : DesiredLRP) (md : DockerExecutionMetadata) (ports : List Nat)
    (h : Build dm cfg app = some (.ok r))
    (hdm : dm app.executionMetadata = some md)
    (hep : extractExposedPorts md = some ports) :
    (r.monitor = some (.timeout (getParallelAction ports (extractUser md)) (30 * timeSecond)) ↔
      (app.healthCheckType = PortHealthCheckType ∨
        app.healthCheckType = UnspecifiedHealthCheckType)) ∧
    (¬(app.healthCheckType = PortHealthCheckType ∨
        app.healthCheckType = UnspecifiedHealthCheckType) → r.monitor = none) := by
  obtain ⟨lp, rfs, md2, p0, ps, rts, _, _, hdm2, hep2, _, hcase⟩ := build_ok_inv dm cfg app r h
  have hmd : md2 = md := by
    rw [hdm] at hdm2
    exact (Option.some.inj hdm2).symm
  subst hmd
  have hports : ports = p0 :: ps := by
    rw [hep] at hep2
    exact Option.some.inj hep2
  subst hports
  have hmon : r.monitor = monitorAction app (p0 :: ps) (extractUser md2) := by
    rcases hcase with ⟨_, hr⟩ | ⟨_, _, _, _, _, hr⟩
    · subst hr; rfl
    · subst hr; rfl
  rw [hmon]
  unfold monitorAction
  by_cases hc : app.healthCheckType = PortHealthCheckType ∨
      app.healthCheckType = UnspecifiedHealthCheckType
  · rw [if_pos hc]
    refine ⟨⟨fun _ => hc, fun _ => rfl⟩, fun hn => absurd hc hn⟩
  · rw [if_neg hc]
    constructor
    · constructor
      · intro h0
        cases h0
      · intro h0
        exact absurd h0 hc
    · intro _
      rfl

/-- Witness for claim C7 at a concrete successful build with the unspecified
health-check kind. -/
theorem thm_C7_w :
    lrpFixture.monitor =
      some (.timeout (getParallelAction [DefaultPort] (extractUser ⟨[], []⟩)) (30 * timeSecond)) :=
  ((thm_C7 decodeFixture configFixture appFixture lrpFixture ⟨[], []⟩ [DefaultPort]
    rfl rfl rfl).1).mpr (Or.inr rfl)

/-- Claim C6: a request built with the secure-shell flag set, compared with
the same request built with the flag clear, has exactly one extra port
appended (the fixed well-known secure-shell port), exactly one extra
route-table entry inserted under the secure-shell route identifier, a run
action-group with exactly two Run children, and the appended port, the
daemon's bind-address port and the route entry's container-side port all
equal to that same fixed port 2222. -/
theorem thm_C6 (dm : List Char → Option DockerExecutionMetadata) (cfg : Config)
    (app : DesireAppRequest) (r1 r0 : DesiredLRP)
    (h1 : Build dm cfg { app with allowSSH := true } = some (.ok r1))
    (h0 : Build dm cfg { app with allowSSH := false } = some (.ok r0)) :
    r1.ports = r0.ports ++ [DefaultSSHPort] ∧
    r1.routes.length = r0.routes.length + 1 ∧
    (∃ hostKP userKP,
      cfg.keyFactory 0 = some hostKP ∧ cfg.keyFactory 1 = some userKP ∧
      r1.routes = insertRoute r0.routes DiegoSSHRouteKey
        (.ssh ⟨2222, userKP.pemEncodedPrivateKey, hostKP.fingerprint⟩) ∧
      (DiegoSSHRouteKey,
        RouteValue.ssh ⟨2222, userKP.pemEncodedPrivateKey, hostKP.fingerprint⟩) ∈ r1.routes) ∧
    (∃ a1 a2, r0.action = some (.codependent [a1]) ∧ r1.action = some (.codependent [a1, a2]) ∧
      isRunAction a1 = true ∧ isRunAction a2 = true ∧
      (actionArgs a2).head? = some (str "-address=0.0.0.0:" ++ (Nat.repr DefaultSSHPort).data)) ∧
    DefaultSSHPort = 2222 ∧
    str "-address=0.0.0.0:" ++ (Nat.repr DefaultSSHPort).data = str "-address=0.0.0.0:2222" := by
  obtain ⟨lp1, rfs1, md1, p01, ps1, rts1, hlk1, hcv1, hdm1, hep1, hcc1, hcase1⟩ :=
    build_ok_inv dm cfg _ r1 h1
  obtain ⟨lp0, rfs0, md0, p00, ps0, rts0, hlk0, hcv0, hdm0, hep0, hcc0, hcase0⟩ :=
    build_ok_inv dm cfg _ r0 h0
  rcases hcase1 with ⟨hb1, _⟩ | ⟨_, hostKP, userKP, hk0, hk1, hr1⟩
  · simp at hb1
  rcases hcase0 with ⟨_, hr0⟩ | ⟨hb0, _⟩
  · dsimp only at hdm1 hdm0 hep1 hep0 hcc1 hcc0 hcv1 hcv0 hlk1 hlk0
    have hmd : md1 = md0 := by
      rw [hdm1] at hdm0
      exact Option.some.inj hdm0
    subst hmd
    have hpp : p01 = p00 ∧ ps1 = ps0 := by
      rw [hep1] at hep0
      have hcons := Option.some.inj hep0
      exact ⟨List.head_eq_of_cons_eq hcons, List.tail_eq_of_cons_eq hcons⟩
    obtain ⟨hp1, hp2⟩ := hpp
    subst hp1
    subst hp2
    have hrts : rts1 = rts0 := by
      rw [hcc1] at hcc0
      exact Option.some.inj hcc0
    subst hrts
    have hrfs : rfs1 = rfs0 := by
      rw [hcv1] at hcv0
      exact Except.ok.inj (Option.some.inj hcv0)
    subst hrfs
    have hlp : lp1 = lp0 := by
      rw [hlk1] at hlk0
      exact Option.some.inj hlk0
    subst hlp
    subst hr1
    subst hr0
    have hfresh := ccRoutes_no_ssh _ _ _ hcc1
    refine ⟨rfl, ?_, ?_, ?_, rfl, by decide⟩
    · exact insertRoute_length rts1 _ _ hfresh
    · exact ⟨hostKP, userKP, hk0, hk1, rfl, insertRoute_mem _ _ _ hfresh⟩
    · refine ⟨appRunAction { app with allowSSH := false } (extractUser md1) p01
          (numFilesOf { app with allowSSH := false }),
        sshRunAction { app with allowSSH := true } (extractUser md1) p01
          (numFilesOf { app with allowSSH := true }) hostKP userKP,
        rfl, rfl, rfl, rfl, rfl⟩
  · simp at hb0

/-- Witness for claim C6 at a concrete request built both ways. -/
theorem thm_C6_w :
    lrpFixtureSSH.ports = lrpFixture.ports ++ [DefaultSSHPort] ∧
    lrpFixtureSSH.routes.length = lrpFixture.routes.length + 1 := by
  have h := thm_C6 decodeFixture configFixture appFixture lrpFixtureSSH lrpFixture rfl rfl
  exact ⟨h.1, h.2.1⟩

end Nsync
